import Mathlib

/-!
Shallow embedding of the `tracing-configurable` crate: the fields collector
(`src/fields.rs`), the pattern / placeholder model and renderer
(`src/pattern.rs`), and the layer hooks that store a `FieldsVisitor` in a
span's extension slot (`src/lib.rs`).

Modelling conventions:
* Rust `HashMap` is modelled as an association list.  `insert` replaces the
  entry for an existing key; `entry(k).or_default().push(v)` appends to the
  existing entry or adds a fresh one at the end.  Iteration order of a Rust
  `HashMap` is unspecified; the model iterates in key first-insertion order,
  which is one admissible order.
* `f64` / `f32` payloads are carried opaquely: the only operation the crate
  ever applies to an `f64` field value is `Display`, so an `f64` is modelled
  by its decimal rendering (a `String`); an `f32` placeholder property is only
  stored and returned by the `float` accessor, so it is modelled by its bit
  pattern (a `Nat`).
* `chrono::Local::now()` together with `format` is an external collaborator;
  it is modelled by a `clock : Option String → String` argument mapping the
  optional `fmt` property to the formatted current time.
* `write!` into a `String` buffer is infallible in Rust; the `let _ =`
  discarded results are modelled as plain string appends.
-/

namespace TracingConfigurable

/-- `EventValue` from `src/fields.rs`: the union of value kinds a structured
field may carry. -/
inductive EventValue where
  | f64 (v : String)
  | i64 (v : Int)
  | u64 (v : Nat)
  | i128 (v : Int)
  | u128 (v : Nat)
  | bool (v : Bool)
  | string (v : String)
deriving DecidableEq, Repr

/-- The `Display` impl for `EventValue` (`src/fields.rs`): every variant is
written with `{}` on its payload. -/
def EventValue.display : EventValue → String
  | .f64 v => v
  | .i64 v => toString v
  | .u64 v => toString v
  | .i128 v => toString v
  | .u128 v => toString v
  | .bool v => toString v
  | .string v => v

/-- `FieldsVisitor` from `src/fields.rs`: an optional message slot and a map
from field name to the ordered list of recorded values. -/
structure FieldsVisitor where
  message : Option String := none
  values : List (String × List EventValue) := []
deriving DecidableEq, Repr

/-- `FieldsVisitor::message()`: the stored message, or `""` when none. -/
def FieldsVisitor.messageText (fv : FieldsVisitor) : String :=
  fv.message.getD ""

/-- `FieldsVisitor::has_values()`. -/
def FieldsVisitor.has_values (fv : FieldsVisitor) : Bool :=
  !fv.values.isEmpty

/-- The closure inside `format_values`: a string variant is wrapped in
backticks, every other variant is displayed plainly. -/
def EventValue.displayQuoted : EventValue → String
  | .string v => "`" ++ v ++ "`"
  | v => v.display

/-- The per-entry closure of `FieldsVisitor::format_values`: an entry with
more than one value renders as `key=[v1,v2,...]`, a single value as
`key=value`, an empty entry is skipped. -/
def formatEntry (kv : String × List EventValue) : Option String :=
  if 1 < kv.2.length then
    some (kv.1 ++ "=[" ++ String.intercalate "," (kv.2.map EventValue.displayQuoted) ++ "]")
  else
    match kv.2.get? 0 with
    | some v => some (kv.1 ++ "=" ++ v.displayQuoted)
    | none => none

/-- `FieldsVisitor::format_values()`: comma-join the formatted entries. -/
def FieldsVisitor.format_values (fv : FieldsVisitor) : String :=
  String.intercalate "," (fv.values.filterMap formatEntry)

/-- `self.values.entry(name).or_default().push(v)`: append `v` to the entry
for `name`, creating the entry if absent. -/
def pushValue (m : List (String × List EventValue)) (name : String) (v : EventValue) :
    List (String × List EventValue) :=
  if m.any (fun p => p.1 == name) then
    m.map (fun p => if p.1 == name then (p.1, p.2 ++ [v]) else p)
  else
    m ++ [(name, [v])]

/-- One call into the `Visit` impl of `FieldsVisitor` (`src/fields.rs`):
which `record_*` method fires and its payload.  `record_error` delegates to
`record_debug`, whose `{:?}` rendering is carried as a string. -/
inductive FieldRecord where
  | f64Rec (name : String) (v : String)
  | i64Rec (name : String) (v : Int)
  | u64Rec (name : String) (v : Nat)
  | i128Rec (name : String) (v : Int)
  | u128Rec (name : String) (v : Nat)
  | boolRec (name : String) (v : Bool)
  | strRec (name : String) (v : String)
  | debugRec (name : String) (v : String)
deriving DecidableEq, Repr

/-- The field name of a record. -/
def FieldRecord.name : FieldRecord → String
  | .f64Rec n _ => n
  | .i64Rec n _ => n
  | .u64Rec n _ => n
  | .i128Rec n _ => n
  | .u128Rec n _ => n
  | .boolRec n _ => n
  | .strRec n _ => n
  | .debugRec n _ => n

/-- The string stored in the message slot when this record is the first
field named "message": `value.to_string()` (resp. `format!("[?]", value)`
for `record_debug`, already carried as a string). -/
def FieldRecord.toMessageString : FieldRecord → String
  | .f64Rec _ v => v
  | .i64Rec _ v => toString v
  | .u64Rec _ v => toString v
  | .i128Rec _ v => toString v
  | .u128Rec _ v => toString v
  | .boolRec _ v => toString v
  | .strRec _ v => v
  | .debugRec _ v => v

/-- The `EventValue` pushed into `values` when the record is not redirected
to the message slot. -/
def FieldRecord.toEventValue : FieldRecord → EventValue
  | .f64Rec _ v => .f64 v
  | .i64Rec _ v => .i64 v
  | .u64Rec _ v => .u64 v
  | .i128Rec _ v => .i128 v
  | .u128Rec _ v => .u128 v
  | .boolRec _ v => .bool v
  | .strRec _ v => .string v
  | .debugRec _ v => .string v

/-- The shared body of every `record_*` method: the first field literally
named "message" fills the message slot; every other record is pushed into
`values` under its name. -/
def FieldsVisitor.applyRecord (fv : FieldsVisitor) (r : FieldRecord) : FieldsVisitor :=
  if r.name = "message" ∧ fv.message = none then
    { fv with message := some r.toMessageString }
  else
    { fv with values := pushValue fv.values r.name r.toEventValue }

/-- Visiting a whole sequence of recorded fields, starting from
`FieldsVisitor::default()`. -/
def FieldsVisitor.recordAll (rs : List FieldRecord) : FieldsVisitor :=
  rs.foldl FieldsVisitor.applyRecord {}

/-- A record sequence with its first field named "message" removed: the
records that are routed into `values` (rather than the message slot) when
visiting from `FieldsVisitor::default()`. -/
def removeFirstMessage : List FieldRecord → List FieldRecord
  | [] => []
  | r :: rs => if r.name = "message" then rs else r :: removeFirstMessage rs

/-- `PlaceholderType` from `src/pattern.rs`: the nine fixed placeholder
kinds. -/
inductive PlaceholderType where
  | text
  | message
  | span
  | target
  | level
  | file
  | line
  | fields
  | dateTime
deriving DecidableEq, Repr

/-- Rust's `str::to_lowercase`, modelled character-wise over the string's
characters.  (The placeholder-kind names and the alignment markers it is
applied to are ASCII, where per-character lowercasing coincides with Rust's
behaviour.) -/
def strToLower (s : String) : String :=
  String.mk (s.data.map Char.toLower)

/-- `PlaceholderType::from_str`: lowercase the name, then match it against
the nine fixed kind names. -/
def PlaceholderType.from_str (v : String) : Option PlaceholderType :=
  let w := strToLower v
  if w = "text" then some .text
  else if w = "message" then some .message
  else if w = "span" then some .span
  else if w = "target" then some .target
  else if w = "level" then some .level
  else if w = "file" then some .file
  else if w = "line" then some .line
  else if w = "fields" then some .fields
  else if w = "datetime" then some .dateTime
  else none

/-- `PlaceholderValue` from `src/pattern.rs`: the typed property payloads.
The `f32` payload is modelled by its bit pattern, since the crate only ever
stores and returns it. -/
inductive PlaceholderValue where
  | string (s : String)
  | boolean (b : Bool)
  | integer (i : Int)
  | float (bits : Nat)
deriving DecidableEq, Repr

/-- `Placeholder` from `src/pattern.rs`: a type tag, a property map and a
flag list. -/
structure Placeholder where
  ty : PlaceholderType
  properties : List (String × PlaceholderValue)
  flags : List String
deriving DecidableEq, Repr

/-- `Placeholder::property`: `HashMap::get` on the property map. -/
def Placeholder.property (ph : Placeholder) (name : String) : Option PlaceholderValue :=
  (ph.properties.find? (fun p => p.1 == name)).map (fun p => p.2)

/-- `Placeholder::str`: the property's payload when it is a string variant. -/
def Placeholder.str (ph : Placeholder) (name : String) : Option String :=
  (ph.property name).bind (fun i =>
    match i with
    | .string s => some s
    | _ => none)

/-- `Placeholder::bool`: the property's payload when it is a boolean
variant. -/
def Placeholder.bool (ph : Placeholder) (name : String) : Option Bool :=
  (ph.property name).bind (fun i =>
    match i with
    | .boolean v => some v
    | _ => none)

/-- `Placeholder::int`: the property's payload when it is an integer
variant. -/
def Placeholder.int (ph : Placeholder) (name : String) : Option Int :=
  (ph.property name).bind (fun i =>
    match i with
    | .integer v => some v
    | _ => none)

/-- `Placeholder::float`: the property's payload when it is a float
variant. -/
def Placeholder.float (ph : Placeholder) (name : String) : Option Nat :=
  (ph.property name).bind (fun i =>
    match i with
    | .float v => some v
    | _ => none)

/-- `Placeholder::flag`: `self.flags.iter().any(|i| i == flag)` — an exact,
case-sensitive membership test. -/
def Placeholder.flag (ph : Placeholder) (f : String) : Bool :=
  ph.flags.any (fun i => i == f)

/-- `PatternItem` from `src/pattern.rs`. -/
inductive PatternItem where
  | text (s : String)
  | placeholder (ph : Placeholder)
deriving DecidableEq, Repr

/-- `Pattern` from `src/pattern.rs`: an ordered sequence of items. -/
structure Pattern where
  items : List PatternItem
deriving DecidableEq, Repr

/-- `Arg` from the `argable_parser` crate as consumed by
`Pattern::try_parse`: a bare flag or a named typed value. -/
inductive RawArg where
  | flag (v : String)
  | value (name : String) (v : PlaceholderValue)
deriving DecidableEq, Repr

/-- `Item` from the `argable_parser` crate as consumed by
`Pattern::try_parse`: literal text or a placeholder with a name and
optional argument list. -/
inductive RawItem where
  | text (v : String)
  | placeholder (name : String) (args : Option (List RawArg))
deriving DecidableEq, Repr

/-- `HashMap::insert`: replace the entry for an existing key, else add the
binding. -/
def mapInsert (m : List (String × PlaceholderValue)) (name : String) (v : PlaceholderValue) :
    List (String × PlaceholderValue) :=
  if m.any (fun p => p.1 == name) then
    m.map (fun p => if p.1 == name then (p.1, v) else p)
  else
    m ++ [(name, v)]

/-- The placeholder arm of the `filter_map` in `Pattern::try_parse`: an
unrecognized type name yields `none` (the `?` after `from_str`, dropping the
item; the `eprintln!` diagnostic has no observable effect on the result);
otherwise the arguments are split into the property map and the flag
list. -/
def splitArgs (args : Option (List RawArg)) :
    List (String × PlaceholderValue) × List String :=
  (args.getD []).foldl
    (fun (acc : List (String × PlaceholderValue) × List String) arg =>
      match arg with
      | .flag v => (acc.1, acc.2 ++ [v])
      | .value n v => (mapInsert acc.1 n v, acc.2))
    ([], [])

def buildPlaceholder (name : String) (args : Option (List RawArg)) : Option PatternItem :=
  match PlaceholderType.from_str name with
  | none => none
  | some ty => some (.placeholder ⟨ty, (splitArgs args).1, (splitArgs args).2⟩)

/-- `Pattern::try_parse`, downstream of the external string parser: the
`filter_map` over the parsed items. -/
def Pattern.try_parse (items : List RawItem) : Pattern :=
  ⟨items.filterMap (fun item =>
    match item with
    | .text v => some (.text v)
    | .placeholder name args => buildPlaceholder name args)⟩

/-- The host span as the renderer observes it: `metadata().name()` and the
extension slot in which `ConfigurableLayer::on_new_span` stores one
`FieldsVisitor` (`src/lib.rs`). -/
structure SpanData where
  name : String
  fieldsVisitor : Option FieldsVisitor
deriving DecidableEq, Repr

/-- The event as the renderer observes it: metadata (level, target, file,
line), the declared parent span id, and the recorded fields replayed by
`event.record(&mut fields)`. -/
structure EventData where
  level : String
  target : String
  file : Option String
  line : Option Nat
  parent : Option Nat
  fields : List FieldRecord

/-- The subscriber context capability consumed by `Pattern::render`:
`context.span(id)` and `context.lookup_current()`. -/
structure RenderContext where
  span : Nat → Option SpanData
  current : Option SpanData

/-- `ConfigurableLayer::on_new_span` (`src/lib.rs`): the `FieldsVisitor`
placed in the new span's extension slot, built by recording the span's
declared attributes into `FieldsVisitor::default()`. -/
def onNewSpanVisitor (attrs : List FieldRecord) : FieldsVisitor :=
  FieldsVisitor.recordAll attrs

/-- The `parent_span` thunk of `Pattern::render`:
`event.parent().and_then(|i| context.span(i)).or_else(|| context.lookup_current())`. -/
def resolveSpan (ev : EventData) (ctx : RenderContext) : Option SpanData :=
  match ev.parent.bind ctx.span with
  | some s => some s
  | none => ctx.current

/-- The `fields` thunk of `Pattern::render`: a fresh `FieldsVisitor` filled
by `event.record`. -/
def eventFields (ev : EventData) : FieldsVisitor :=
  FieldsVisitor.recordAll ev.fields

/-- `eq_ignore_ascii_case` as used on the `alignment` property.  (The model
lowercases full Unicode; the strings compared against are `"<"` and `">"`,
on which the two notions agree.) -/
def eqIgnoreAsciiCase (a b : String) : Bool :=
  strToLower a == strToLower b

/-- `i as usize` on a 64-bit target, applied to the `i32` payload of the
`width` property: sign-extend and reinterpret, i.e. reduce modulo `2^64`. -/
def usizeOfI32 (i : Int) : Nat :=
  (i % (2 : Int) ^ 64).toNat

/-- A run of `n` spaces, the fill Rust's formatter uses for string
padding. -/
def spaces (n : Nat) : String :=
  String.mk (List.replicate n ' ')

/-- Rust's `write!("{:<width$}", s)` / `write!("{:>width$}", s)` on a
string: pad with spaces to the minimum width, counting characters. -/
def padValue (leftAlign : Bool) (w : Nat) (s : String) : String :=
  if w ≤ s.length then s
  else if leftAlign then s ++ spaces (w - s.length)
  else spaces (w - s.length) ++ s

/-- The `inner` value computed for one placeholder in `Pattern::render`:
the optional raw value before prefix/width/suffix handling. -/
def innerValue (clock : Option String → String) (ev : EventData) (ctx : RenderContext)
    (ph : Placeholder) : Option String :=
  match ph.ty with
  | .text => ph.str "value"
  | .target => some ev.target
  | .level => some ev.level
  | .file => ev.file
  | .line => ev.line.map toString
  | .span =>
      (resolveSpan ev ctx).map (fun sp =>
        match sp.fieldsVisitor with
        | some fv =>
            if ph.flag "args" then
              sp.name ++ (ph.str "args_prefix").getD "" ++ fv.format_values
                ++ (ph.str "args_suffix").getD ""
            else sp.name
        | none => sp.name)
  | .message => some (eventFields ev).messageText
  | .fields =>
      if (eventFields ev).has_values then some (eventFields ev).format_values
      else none
  | .dateTime => some (clock (ph.str "fmt"))

/-- The `let width = placeholder.int("width").map(|i| i as usize)` line of
`Pattern::render`. -/
def padWidth (ph : Placeholder) : Option Nat :=
  (ph.int "width").map usizeOfI32

/-- The `is_left_align` computation of `Pattern::render`: `Some true` for
`<`, `Some false` for `>`, `None` otherwise. -/
def isLeftAlign (ph : Placeholder) : Option Bool :=
  (ph.str "alignment").bind (fun i =>
    if eqIgnoreAsciiCase i "<" then some true
    else if eqIgnoreAsciiCase i ">" then some false
    else none)

/-- The width/alignment block of `Pattern::render`: pad the value to the
computed width when a recognized alignment is present, else write it
unpadded. -/
def paddedValue (ph : Placeholder) (value : String) : String :=
  match padWidth ph with
  | some w =>
      match isLeftAlign ph with
      | some true => padValue true w value
      | some false => padValue false w value
      | none => value
  | none => value

/-- The placeholder emission block of `Pattern::render`: when the
placeholder produced a value, append prefix, the (possibly padded) value and
suffix to the buffer; otherwise leave the buffer untouched. -/
def renderPlaceholder (clock : Option String → String) (ev : EventData) (ctx : RenderContext)
    (buf : String) (ph : Placeholder) : String :=
  match innerValue clock ev ctx ph with
  | none => buf
  | some value =>
      buf ++ (ph.str "prefix").getD "" ++ paddedValue ph value ++ (ph.str "suffix").getD ""

/-- One iteration of the item loop in `Pattern::render`. -/
def renderItem (clock : Option String → String) (ev : EventData) (ctx : RenderContext)
    (buf : String) : PatternItem → String
  | .text s => buf ++ s
  | .placeholder ph => renderPlaceholder clock ev ctx buf ph

/-- `Pattern::render` with the thread-local buffer made explicit: the items
are folded over the incoming buffer contents, the full buffer is returned as
the rendered string (wrapped in `Some`), and the buffer is cleared for the
next call. -/
def Pattern.render (p : Pattern) (ev : EventData) (ctx : RenderContext)
    (clock : Option String → String) (buf : String) : Option String × String :=
  (some (p.items.foldl (renderItem clock ev ctx) buf), "")

/-- One render invocation on a thread: the inputs of one `Pattern::render`
call sharing the thread-local buffer. -/
structure RenderCall where
  pattern : Pattern
  event : EventData
  ctx : RenderContext
  clock : Option String → String

/-- The thread-local buffer contents after a sequence of render calls. -/
def runBuf (buf : String) : List RenderCall → String
  | [] => buf
  | c :: rest => runBuf (c.pattern.render c.event c.ctx c.clock buf).2 rest

/-- Whether a pattern item is a DateTime placeholder. -/
def PatternItem.isDateTime : PatternItem → Bool
  | .placeholder ph => ph.ty == PlaceholderType.dateTime
  | .text _ => false

/-- Whether a pattern contains any DateTime placeholder. -/
def Pattern.hasDateTime (p : Pattern) : Bool :=
  p.items.any PatternItem.isDateTime

/-! Concrete instances used to exercise the model. -/

/-- A fixed clock standing in for `chrono::Local::now()` plus formatting. -/
def stubClock : Option String → String :=
  fun _ => "2026-01-01 00:00:00.000000"

/-- An event at level `WARN` with no fields, no location and no declared
parent. -/
def warnEvent : EventData :=
  ⟨"WARN", "app", none, none, none, []⟩

/-- A context with no registered spans and no current span. -/
def emptyCtx : RenderContext :=
  ⟨fun _ => none, none⟩

/-- A Span placeholder with the `args` flag and explicit
`args_prefix`/`args_suffix` properties. -/
def c2Ph : Placeholder :=
  ⟨.span, [("args_prefix", .string "("), ("args_suffix", .string ")")], ["args"]⟩

/-- A context whose current span is named `test` and whose extension slot
holds the visitor of a span declared with no attributes
(`FieldsVisitor::default()`: no message, empty `values`). -/
def c2Ctx : RenderContext :=
  ⟨fun _ => none, some ⟨"test", some {}⟩⟩

/-- An event with no declared parent, forcing the current-span fallback. -/
def c2Event : EventData :=
  ⟨"INFO", "app", none, none, none, []⟩

/-- A Level placeholder carrying a `prefix` and a `suffix` property. -/
def c5Ph : Placeholder :=
  ⟨.level, [("prefix", .string "<"), ("suffix", .string ">")], []⟩

/-- A prior render invocation, used to populate the thread-local buffer
history. -/
def c9Call : RenderCall :=
  ⟨⟨[.text "leftover"]⟩, warnEvent, emptyCtx, stubClock⟩

/-- A single-placeholder pattern with no DateTime item. -/
def c9Pattern : Pattern :=
  ⟨[.placeholder ⟨.level, [], []⟩]⟩

/-- A Level placeholder whose `width` property is the negative integer `-1`
and whose alignment is `>`. -/
def c10Ph : Placeholder :=
  ⟨.level, [("width", .integer (-1)), ("alignment", .string ">")], []⟩

/-! Helper lemmas shared by the development. -/

/-- Once the message slot is filled, every further record — whatever its
name, "message" included — is pushed into `values` and the slot is left
untouched. -/
theorem foldl_applyRecord_message_some (rs : List FieldRecord) :
    ∀ (fv : FieldsVisitor) (m : String), fv.message = some m →
      rs.foldl FieldsVisitor.applyRecord fv =
        ⟨some m, rs.foldl (fun acc r => pushValue acc r.name r.toEventValue) fv.values⟩ := by
  induction rs with
  | nil =>
      intro fv m hm
      obtain ⟨msg, vals⟩ := fv
      simp_all
  | cons r rs ih =>
      intro fv m hm
      have happ : FieldsVisitor.applyRecord fv r =
          { fv with values := pushValue fv.values r.name r.toEventValue } := by
        simp [FieldsVisitor.applyRecord, hm]
      simp only [List.foldl_cons, happ]
      exact ih _ m hm

/-- Visiting an arbitrary record sequence starting from an empty message
slot: the slot receives the first record named "message" (if any), and
`values` receives the pushes of every remaining record, in recorded
order. -/
theorem foldl_applyRecord_message_none (rs : List FieldRecord) :
    ∀ vals : List (String × List EventValue),
      rs.foldl FieldsVisitor.applyRecord ⟨none, vals⟩ =
        ⟨(rs.find? (fun r => r.name == "message")).map FieldRecord.toMessageString,
         (removeFirstMessage rs).foldl
            (fun acc r => pushValue acc r.name r.toEventValue) vals⟩ := by
  induction rs with
  | nil => intro vals; rfl
  | cons r rs ih =>
      intro vals
      by_cases hr : r.name = "message"
      · have happ : FieldsVisitor.applyRecord ⟨none, vals⟩ r =
            ⟨some r.toMessageString, vals⟩ := by
          simp [FieldsVisitor.applyRecord, hr]
        simp only [List.foldl_cons, happ]
        rw [foldl_applyRecord_message_some rs _ _ rfl]
        simp [removeFirstMessage, hr]
      · have happ : FieldsVisitor.applyRecord ⟨none, vals⟩ r =
            ⟨none, pushValue vals r.name r.toEventValue⟩ := by
          simp [FieldsVisitor.applyRecord, hr]
        simp only [List.foldl_cons, happ, ih]
        simp [removeFirstMessage, hr]

/-- A non-DateTime placeholder resolves to the same raw value under any
clock. -/
theorem innerValue_clock_irrel (ph : Placeholder) (ev : EventData) (ctx : RenderContext)
    (clock clock' : Option String → String) (h : ph.ty ≠ PlaceholderType.dateTime) :
    innerValue clock ev ctx ph = innerValue clock' ev ctx ph := by
  cases hty : ph.ty <;> simp_all [innerValue]

/-- A non-DateTime pattern item appends the same text under any clock. -/
theorem renderItem_clock_irrel (item : PatternItem) (ev : EventData) (ctx : RenderContext)
    (clock clock' : Option String → String) (buf : String)
    (h : item.isDateTime = false) :
    renderItem clock ev ctx buf item = renderItem clock' ev ctx buf item := by
  cases item with
  | text s => rfl
  | placeholder ph =>
      have hty : ph.ty ≠ PlaceholderType.dateTime := by
        simpa [PatternItem.isDateTime] using h
      simp [renderItem, renderPlaceholder, innerValue_clock_irrel ph ev ctx clock clock' hty]

/-- The item loop of a DateTime-free pattern is clock-independent. -/
theorem foldl_renderItem_clock_irrel (items : List PatternItem) (ev : EventData)
    (ctx : RenderContext) (clock clock' : Option String → String)
    (h : ∀ it ∈ items, PatternItem.isDateTime it = false) :
    ∀ buf : String,
      items.foldl (renderItem clock ev ctx) buf = items.foldl (renderItem clock' ev ctx) buf := by
  induction items with
  | nil => intro buf; rfl
  | cons it items ih =>
      intro buf
      have h1 : it.isDateTime = false := h it (List.mem_cons_self it items)
      have h2 : ∀ x ∈ items, PatternItem.isDateTime x = false :=
        fun x hx => h x (List.mem_cons_of_mem it hx)
      simp only [List.foldl_cons, renderItem_clock_irrel it ev ctx clock clock' buf h1]
      exact ih h2 _

/-- Starting from an empty thread-local buffer, any sequence of render calls
leaves the buffer empty: every call clears it before returning. -/
theorem runBuf_empty (calls : List RenderCall) : runBuf "" calls = "" := by
  induction calls with
  | nil => rfl
  | cons c rest ih => simpa [runBuf, Pattern.render] using ih

end TracingConfigurable

namespace TracingConfigurable

/-- C3: `Pattern::render` never fails: for every pattern, event, context,
clock and incoming buffer state, the `Option` result is `Some` of the
rendered string (internal formatting errors are discarded with `let _ =`
inside the loop and cannot surface to the caller). -/
theorem render_never_fails (p : Pattern) (ev : EventData) (ctx : RenderContext)
    (clock : Option String → String) (buf : String) :
    ((p.render ev ctx clock buf).1).isSome = true :=
  rfl

/-- C4: a Level placeholder producing `WARN` (4 characters) with `width=5`
renders as `" WARN"` under alignment `>`, as `"WARN "` under alignment `<`,
and unpadded as `"WARN"` under an unrecognized alignment or with `width`
alone. -/
theorem level_width_alignment :
    (Pattern.render ⟨[.placeholder ⟨.level, [("width", .integer 5), ("alignment", .string ">")], []⟩]⟩
        warnEvent emptyCtx stubClock "").1 = some " WARN" ∧
    (Pattern.render ⟨[.placeholder ⟨.level, [("width", .integer 5), ("alignment", .string "<")], []⟩]⟩
        warnEvent emptyCtx stubClock "").1 = some "WARN " ∧
    (Pattern.render ⟨[.placeholder ⟨.level, [("width", .integer 5), ("alignment", .string "^")], []⟩]⟩
        warnEvent emptyCtx stubClock "").1 = some "WARN" ∧
    (Pattern.render ⟨[.placeholder ⟨.level, [("width", .integer 5)], []⟩]⟩
        warnEvent emptyCtx stubClock "").1 = some "WARN" := by
  decide

/-- C1 counterexample: recording the field "message" twice stores the first
value in the message slot but pushes the second into `values` under the key
"message" — refuting the claim that later "message" fields never appear in
`values`. -/
theorem message_duplicate_recorded_in_values :
    (FieldsVisitor.recordAll [.strRec "message" "a", .strRec "message" "b"]).message = some "a" ∧
    (FieldsVisitor.recordAll [.strRec "message" "a", .strRec "message" "b"]).values =
      [("message", [EventValue.string "b"])] := by
  decide

/-- C1 (amended): for every sequence of recorded fields — mixed names
included — the message slot holds the value of the first recorded field
literally named "message" (and is `none` when there is no such field), and
`values` is exactly the result of pushing every remaining record, the later
"message" fields among them, under its own name in recorded order: later
"message" fields are recorded into `values` like ordinary fields rather
than ignored. -/
theorem message_first_wins (rs : List FieldRecord) :
    (FieldsVisitor.recordAll rs).message =
      (rs.find? (fun r => r.name == "message")).map FieldRecord.toMessageString ∧
    (FieldsVisitor.recordAll rs).values =
      (removeFirstMessage rs).foldl (fun acc r => pushValue acc r.name r.toEventValue) [] := by
  have h : FieldsVisitor.recordAll rs =
      ⟨(rs.find? (fun r => r.name == "message")).map FieldRecord.toMessageString,
       (removeFirstMessage rs).foldl (fun acc r => pushValue acc r.name r.toEventValue) []⟩ :=
    foldl_applyRecord_message_none rs []
  rw [h]
  exact ⟨rfl, rfl⟩

/-- C5: a placeholder that produced a value contributes exactly its
`prefix` property, then the possibly padded value, then its `suffix`
property, in that order; a placeholder producing no value contributes
nothing at all — no prefix, no suffix, no padding. -/
theorem placeholder_contribution (ph : Placeholder) (ev : EventData) (ctx : RenderContext)
    (clock : Option String → String) (buf : String) :
    (innerValue clock ev ctx ph = none →
        renderItem clock ev ctx buf (.placeholder ph) = buf) ∧
    (∀ v, innerValue clock ev ctx ph = some v →
        renderItem clock ev ctx buf (.placeholder ph) =
          buf ++ (ph.str "prefix").getD "" ++ paddedValue ph v ++ (ph.str "suffix").getD "") := by
  constructor
  · intro h
    simp [renderItem, renderPlaceholder, h]
  · intro v h
    simp [renderItem, renderPlaceholder, h]

/-- C5 witness: a Level placeholder with `prefix` and `suffix` at a
concrete buffer. -/
theorem placeholder_contribution_witness :
    renderItem stubClock warnEvent emptyCtx "buf" (.placeholder c5Ph) =
      "buf" ++ (c5Ph.str "prefix").getD "" ++ paddedValue c5Ph "WARN"
        ++ (c5Ph.str "suffix").getD "" :=
  (placeholder_contribution c5Ph warnEvent emptyCtx stubClock "buf").2 "WARN" (by decide)

/-- C6: `format_values` comma-joins `key=value` entries; a key with several
recorded values renders as `key=[v1,v2,...]` in recorded order; a string
variant is wrapped in backticks while every other variant is displayed
plainly; and recording `x` with `1` then `2` yields exactly `"x=[1,2]"`. -/
theorem format_values_shape :
    (∀ (k : String) (vs : List EventValue), 1 < vs.length →
        formatEntry (k, vs) =
          some (k ++ "=[" ++ String.intercalate "," (vs.map EventValue.displayQuoted) ++ "]")) ∧
    (∀ (k : String) (v : EventValue),
        formatEntry (k, [v]) = some (k ++ "=" ++ v.displayQuoted)) ∧
    (∀ s : String, EventValue.displayQuoted (.string s) = "`" ++ s ++ "`") ∧
    (∀ v : EventValue, (∀ s, v ≠ .string s) → v.displayQuoted = v.display) ∧
    (∀ fv : FieldsVisitor,
        fv.format_values = String.intercalate "," (fv.values.filterMap formatEntry)) ∧
    (FieldsVisitor.recordAll [.i64Rec "x" 1, .i64Rec "x" 2]).format_values = "x=[1,2]" := by
  refine ⟨?_, ?_, ?_, ?_, fun _ => rfl, by decide⟩
  · intro k vs h
    simp [formatEntry, h]
  · intro k v
    simp [formatEntry]
  · intro s
    rfl
  · intro v h
    cases v <;> simp [EventValue.displayQuoted, EventValue.display]
    exact absurd rfl (h _)

/-- C6 witness: the multi-value entry format at a concrete two-value key. -/
theorem format_values_shape_witness :
    formatEntry ("x", [EventValue.i64 1, EventValue.i64 2]) =
      some ("x" ++ "=[" ++ String.intercalate ","
        ([EventValue.i64 1, EventValue.i64 2].map EventValue.displayQuoted) ++ "]") :=
  format_values_shape.1 "x" [EventValue.i64 1, EventValue.i64 2] (by decide)

/-- C8: each typed accessor returns the property's payload exactly when a
property of that name exists with the matching variant, and `none` (never an
error) when it is missing or has another variant; `flag(name)` is true
exactly when the flag list contains a string equal — case-sensitively — to
`name`. -/
theorem typed_accessors :
    (∀ (ph : Placeholder) (name : String) (s : String),
        ph.str name = some s ↔ ph.property name = some (.string s)) ∧
    (∀ (ph : Placeholder) (name : String) (b : Bool),
        ph.bool name = some b ↔ ph.property name = some (.boolean b)) ∧
    (∀ (ph : Placeholder) (name : String) (i : Int),
        ph.int name = some i ↔ ph.property name = some (.integer i)) ∧
    (∀ (ph : Placeholder) (name : String) (f : Nat),
        ph.float name = some f ↔ ph.property name = some (.float f)) ∧
    (∀ (ph : Placeholder) (name : String), ph.flag name = true ↔ name ∈ ph.flags) := by
  refine ⟨?_, ?_, ?_, ?_, ?_⟩
  · intro ph name s
    rcases h : ph.property name with _ | val
    · simp [Placeholder.str, h]
    · cases val <;> simp [Placeholder.str, h]
  · intro ph name b
    rcases h : ph.property name with _ | val
    · simp [Placeholder.bool, h]
    · cases val <;> simp [Placeholder.bool, h]
  · intro ph name i
    rcases h : ph.property name with _ | val
    · simp [Placeholder.int, h]
    · cases val <;> simp [Placeholder.int, h]
  · intro ph name f
    rcases h : ph.property name with _ | val
    · simp [Placeholder.float, h]
    · cases val <;> simp [Placeholder.float, h]
  · intro ph name
    simp [Placeholder.flag, List.any_eq_true, beq_iff_eq]

/-- C2 counterexample: with the `args` flag set and the nearest span's
stored `FieldsVisitor` having an empty `values` mapping, the renderer still
appends `args_prefix ++ format_values() ++ args_suffix` (here `()`), giving
`"test()"` where the claim requires the bare name `"test"`. -/
theorem span_args_appended_despite_empty_values :
    ({} : FieldsVisitor).values = [] ∧
    c2Ctx.current = some ⟨"test", some {}⟩ ∧
    c2Ph.flag "args" = true ∧
    (Pattern.render ⟨[.placeholder c2Ph]⟩ c2Event c2Ctx stubClock "").1 = some "test()" ∧
    "test()" ≠ "test" := by
  refine ⟨rfl, rfl, by decide, by decide, by decide⟩

/-- C2 (amended): a Span placeholder resolves the event's declared parent if
it is present and found, else the currently active span; no resolved span
yields no value; a resolved span yields its name, and
`args_prefix + formatValues() + args_suffix` (prefix/suffix defaulting to
empty) is appended exactly when the `args` flag is set and the span's
extension slot holds a stored `FieldsVisitor` — whether or not its `values`
mapping is empty. -/
theorem span_placeholder_resolution (ph : Placeholder) (ev : EventData) (ctx : RenderContext)
    (clock : Option String → String) (h : ph.ty = PlaceholderType.span) :
    (∀ i sp, ev.parent = some i → ctx.span i = some sp → resolveSpan ev ctx = some sp) ∧
    (ev.parent.bind ctx.span = none → resolveSpan ev ctx = ctx.current) ∧
    (resolveSpan ev ctx = none → innerValue clock ev ctx ph = none) ∧
    (∀ sp, resolveSpan ev ctx = some sp → sp.fieldsVisitor = none →
        innerValue clock ev ctx ph = some sp.name) ∧
    (∀ sp fv, resolveSpan ev ctx = some sp → sp.fieldsVisitor = some fv →
        ph.flag "args" = false → innerValue clock ev ctx ph = some sp.name) ∧
    (∀ sp fv, resolveSpan ev ctx = some sp → sp.fieldsVisitor = some fv →
        ph.flag "args" = true →
        innerValue clock ev ctx ph = some (sp.name ++ (ph.str "args_prefix").getD ""
          ++ fv.format_values ++ (ph.str "args_suffix").getD "")) := by
  refine ⟨?_, ?_, ?_, ?_, ?_, ?_⟩
  · intro i sp hp hs
    simp [resolveSpan, hp, hs]
  · intro hn
    simp [resolveSpan, hn]
  · intro hn
    simp [innerValue, h, hn]
  · intro sp hs hf
    simp [innerValue, h, hs, hf]
  · intro sp fv hs hf hfl
    simp [innerValue, h, hs, hf, hfl]
  · intro sp fv hs hf hfl
    simp [innerValue, h, hs, hf, hfl]

/-- C2 witness: the append case at a concrete span whose visitor is the
default (empty) one. -/
theorem span_placeholder_resolution_witness :
    innerValue stubClock c2Event c2Ctx c2Ph =
      some ((⟨"test", some {}⟩ : SpanData).name ++ (c2Ph.str "args_prefix").getD ""
        ++ ({} : FieldsVisitor).format_values ++ (c2Ph.str "args_suffix").getD "") :=
  (span_placeholder_resolution c2Ph c2Event c2Ctx stubClock (by decide)).2.2.2.2.2
    ⟨"test", some {}⟩ {} (by decide) (by decide) (by decide)

/-- C7: placeholder type names are matched case-insensitively (after
lowercasing) against exactly the nine fixed kind names; a placeholder whose
name is not among them is dropped from the parsed `Pattern` entirely, while
text items and recognized placeholders around it parse unchanged. -/
theorem unknown_placeholder_dropped :
    (∀ name : String, (PlaceholderType.from_str name).isSome = true ↔
        strToLower name ∈ ["text", "message", "span", "target", "level", "file", "line",
          "fields", "datetime"]) ∧
    (∀ (pre post : List RawItem) (name : String) (args : Option (List RawArg)),
        PlaceholderType.from_str name = none →
        (Pattern.try_parse (pre ++ RawItem.placeholder name args :: post)).items =
          (Pattern.try_parse (pre ++ post)).items) ∧
    (∀ (pre post : List RawItem) (s : String),
        (Pattern.try_parse (pre ++ RawItem.text s :: post)).items =
          (Pattern.try_parse pre).items ++ PatternItem.text s :: (Pattern.try_parse post).items) ∧
    (∀ (pre post : List RawItem) (name : String) (args : Option (List RawArg))
        (ty : PlaceholderType), PlaceholderType.from_str name = some ty →
        (Pattern.try_parse (pre ++ RawItem.placeholder name args :: post)).items =
          (Pattern.try_parse pre).items ++
            PatternItem.placeholder ⟨ty, (splitArgs args).1, (splitArgs args).2⟩ ::
              (Pattern.try_parse post).items) := by
  refine ⟨?_, ?_, ?_, ?_⟩
  · intro name
    simp only [PlaceholderType.from_str]
    split_ifs <;> simp_all
  · intro pre post name args h
    simp [Pattern.try_parse, List.filterMap_append, List.filterMap_cons, buildPlaceholder, h]
  · intro pre post s
    simp [Pattern.try_parse, List.filterMap_append, List.filterMap_cons]
  · intro pre post name args ty h
    simp [Pattern.try_parse, List.filterMap_append, List.filterMap_cons, buildPlaceholder, h]

/-- C7 witness: a template with an unknown `bogus` placeholder between two
text items parses to the same pattern as the template without it. -/
theorem unknown_placeholder_dropped_witness :
    (Pattern.try_parse ([RawItem.text "a"] ++ RawItem.placeholder "bogus" none ::
        [RawItem.text "b"])).items =
      (Pattern.try_parse ([RawItem.text "a"] ++ [RawItem.text "b"])).items :=
  unknown_placeholder_dropped.2.1 [RawItem.text "a"] [RawItem.text "b"] "bogus" none (by decide)

/-- C9: for a pattern without DateTime placeholders, rendering is
deterministic and leaks no state between invocations on a thread: the
thread-local buffer is empty at the start of every call (any prior call
sequence leaves it empty), and the rendered output after any prior call
history under any clock equals the output from a fresh empty buffer under
any other clock. -/
theorem render_state_free (p : Pattern) (ev : EventData) (ctx : RenderContext)
    (prev prev' : List RenderCall) (clock clock' : Option String → String)
    (h : p.hasDateTime = false) :
    runBuf "" prev = "" ∧
    (p.render ev ctx clock (runBuf "" prev)).1 = (p.render ev ctx clock' (runBuf "" prev')).1 := by
  refine ⟨runBuf_empty prev, ?_⟩
  rw [runBuf_empty, runBuf_empty]
  have hitems : ∀ it ∈ p.items, PatternItem.isDateTime it = false := by
    simpa [Pattern.hasDateTime, List.any_eq_false] using h
  simp only [Pattern.render]
  rw [foldl_renderItem_clock_irrel p.items ev ctx clock clock' hitems ""]

/-- C9 witness: one prior call and two different clocks at a concrete
DateTime-free pattern. -/
theorem render_state_free_witness :
    runBuf "" [c9Call] = "" ∧
    (c9Pattern.render warnEvent emptyCtx stubClock (runBuf "" [c9Call])).1 =
      (c9Pattern.render warnEvent emptyCtx (fun _ => "other clock") "").1 :=
  render_state_free c9Pattern warnEvent emptyCtx [c9Call] [] stubClock
    (fun _ => "other clock") (by decide)

/-- C10: a negative 32-bit `width` w is not rejected: `w as usize`
sign-extends and reinterprets it as the unsigned 64-bit value `2^64 + w`,
and with alignment `<` or `>` the renderer pads the value to that enormous
minimum field width. -/
theorem negative_width_cast (ph : Placeholder) (w : Int) (align : String) (ev : EventData)
    (ctx : RenderContext) (clock : Option String → String) (buf v : String)
    (h1 : -(2 ^ 31) ≤ w) (h2 : w < 0)
    (hw : ph.int "width" = some w)
    (ha : ph.str "alignment" = some align)
    (hal : align = "<" ∨ align = ">")
    (hv : innerValue clock ev ctx ph = some v) :
    padWidth ph = some ((2 ^ 64 + w : Int).toNat) ∧
    (((2 ^ 64 + w : Int).toNat : Int) = 2 ^ 64 + w) ∧
    renderItem clock ev ctx buf (.placeholder ph) =
      buf ++ (ph.str "prefix").getD "" ++ padValue (align == "<") ((2 ^ 64 + w : Int).toNat) v
        ++ (ph.str "suffix").getD "" := by
  have hcast : usizeOfI32 w = (2 ^ 64 + w : Int).toNat := by
    simp only [usizeOfI32]
    omega
  refine ⟨by simp [padWidth, hw, hcast], by omega, ?_⟩
  rcases hal with rfl | rfl <;>
    simp [renderItem, renderPlaceholder, hv, paddedValue, padWidth, hw, hcast,
      isLeftAlign, ha, eqIgnoreAsciiCase, strToLower]

/-- C10 witness: `width = -1` with alignment `>` on a Level placeholder
produces the pad width `2^64 - 1`. -/
theorem negative_width_cast_witness :
    padWidth c10Ph = some ((2 ^ 64 + (-1) : Int).toNat) ∧
    (((2 ^ 64 + (-1) : Int).toNat : Int) = 2 ^ 64 + (-1)) ∧
    renderItem stubClock warnEvent emptyCtx "" (.placeholder c10Ph) =
      "" ++ (c10Ph.str "prefix").getD "" ++
        padValue (">" == "<") ((2 ^ 64 + (-1) : Int).toNat) "WARN"
        ++ (c10Ph.str "suffix").getD "" :=
  negative_width_cast c10Ph (-1) ">" warnEvent emptyCtx stubClock "" "WARN"
    (by norm_num) (by norm_num) (by decide) (by decide) (Or.inr rfl) (by decide)

end TracingConfigurable
